import Mathlib

/-!
# Verification of the je4OS kernel core

A shallow embedding, in Lean 4, of the parts of the je4OS kernel that the
specification's claims are about:

* the physical/virtual address conversions of `kernel/src/paging.rs`;
* the timer wheel of `kernel/src/timer.rs` together with the tick-driven
  softirq drain;
* the task model, the nice-to-weight table and `vruntime` accounting of
  `kernel/src/sched/task.rs`;
* the multi-level scheduler of `kernel/src/sched/scheduler.rs`;
* the blocking/wake-up machinery of `kernel/src/sched/blocking.rs`;
* the slab allocator of `src/allocator.rs`.

Machine integers (`u64`, `usize`, `u8`) are embedded as `Nat` with explicit
`% 2^64` reductions at the operations where Rust's release-mode wrapping
semantics could matter.  Fallible Rust functions returning `Result` are
embedded as `Except`.
-/

namespace Je4OS

/-- `2^64`, the modulus of Rust's `u64`/`usize` arithmetic. -/
def U64LIM : Nat := 2 ^ 64

/-- Wrapping `u64` addition (Rust release-mode overflow semantics). -/
def wrapAdd (a b : Nat) : Nat := (a + b) % U64LIM

/-- Wrapping `u64` multiplication (Rust release-mode overflow semantics). -/
def wrapMul (a b : Nat) : Nat := (a * b) % U64LIM

/-- `u64::saturating_add`. -/
def satAdd (a b : Nat) : Nat := min (a + b) (U64LIM - 1)

/-- `u64::checked_sub`: `none` on underflow. -/
def checkedSub (a b : Nat) : Option Nat :=
  if a < b then none else some (a - b)

/-! ## Paging (`kernel/src/paging.rs`) -/

/-- `KERNEL_VIRTUAL_BASE = 0xFFFF_8000_0000_0000` (paging.rs). -/
def KERNEL_VIRTUAL_BASE : Nat := 0xFFFF800000000000

/-- `PAGE_SIZE = 4096` (paging.rs). -/
def PAGE_SIZE : Nat := 4096

/-- `MAX_SUPPORTED_MEMORY_GB = 4` (paging.rs); the byte bound is `4 GiB`. -/
def MAX_SUPPORTED_MEMORY : Nat := 4 * (2 ^ 30)

/-- The error type `PagingError` of paging.rs (variants used by the
address conversions). -/
inductive PagingError where
  | InvalidAddress
  | AddressConversionFailed
  | GuardPageSetupFailed
  | PageTableInitFailed
  | AcpiAddressInvalid
  | ChecksumFailed
deriving DecidableEq, Repr

/-- `paging.rs::phys_to_virt`: rejects the null physical address, otherwise
adds `KERNEL_VIRTUAL_BASE` (a `u64` addition, hence reduced `% 2^64`). -/
def phys_to_virt (phys_addr : Nat) : Except PagingError Nat :=
  if phys_addr = 0 then .error .InvalidAddress
  else .ok (wrapAdd phys_addr KERNEL_VIRTUAL_BASE)

/-- `paging.rs::virt_to_phys`: rejects addresses below `KERNEL_VIRTUAL_BASE`,
otherwise `checked_sub`s the base. -/
def virt_to_phys (virt_addr : Nat) : Except PagingError Nat :=
  if virt_addr < KERNEL_VIRTUAL_BASE then .error .InvalidAddress
  else
    match checkedSub virt_addr KERNEL_VIRTUAL_BASE with
    | some p => .ok p
    | none => .error .AddressConversionFailed

/-- The mapping established by `paging.rs::init`: the 4-KiB page holding
physical address `p` receives a Present+Writable entry exactly when its page
base lies below `actual_max` (the loop
`if physical_addr < actual_max { ... set(physical_addr, flags) }`). -/
def pageMapped (actualMax p : Nat) : Bool :=
  (p / PAGE_SIZE) * PAGE_SIZE < actualMax

/-- Composition `virt_to_phys ∘ phys_to_virt`, the round trip of the spec
(errors of the first conversion propagate). -/
def physRoundtrip (p : Nat) : Except PagingError Nat :=
  match phys_to_virt p with
  | .ok v => virt_to_phys v
  | .error e => .error e

/-! ## Timer tick conversions (`kernel/src/timer.rs`) -/

/-- `timer.rs::ms_to_ticks`: `(ms * frequency) / 1000` in `u64` arithmetic
(the multiplication wraps in release mode). -/
def ms_to_ticks (frequency ms : Nat) : Nat :=
  wrapMul ms frequency / 1000

/-- `timer.rs::seconds_to_ticks`: `seconds * frequency`. -/
def seconds_to_ticks (frequency seconds : Nat) : Nat :=
  wrapMul seconds frequency

/-- The tick count `sleep_ms` passes to `register_timer`
(blocking.rs: `crate::timer::ms_to_ticks(ms).max(1)`). -/
def sleepTicks (frequency ms : Nat) : Nat :=
  max (ms_to_ticks frequency ms) 1

/-- The absolute expiry tick of the timer registered by `sleep_ms(ms)`
when the current tick is `start` (timer.rs `Timer::new`:
`expires_at = current_tick() + delay_ticks`, a wrapping `u64` addition). -/
def sleepExpiry (frequency start ms : Nat) : Nat :=
  wrapAdd start (sleepTicks frequency ms)

/-! ## The timer wheel as a tick-driven machine (`kernel/src/timer.rs`)

A timer's type-erased one-shot callback is represented by the timer's `id`:
"the callback of timer `id` was invoked" is recorded by appending `id` to the
`fired` trace, and `Option`-consumption of the `FnOnce` box corresponds to the
timer leaving `queue`/`pending` when it fires. -/

/-- `timer.rs::Timer` (the callback is represented by `id`, see above). -/
structure TimerEntry where
  id : Nat
  expires_at : Nat
deriving DecidableEq, Repr

/-- The timer-wheel state: `TICK_COUNT`, `TIMER_QUEUE`, `PENDING_QUEUE`,
and the trace of callback invocations. -/
structure TimerState where
  tick : Nat
  queue : List TimerEntry
  pending : List TimerEntry
  fired : List Nat
deriving DecidableEq, Repr

/-- `timer.rs::register_timer(delay_ticks, cb)`: pushes a timer with
`expires_at = current_tick() + delay_ticks` (wrapping `u64` addition) onto
`TIMER_QUEUE`. -/
def register_timer (s : TimerState) (delay_ticks id : Nat) : TimerState :=
  { s with queue := s.queue ++ [⟨id, wrapAdd s.tick delay_ticks⟩] }

/-- One APIC timer tick, as performed by the interrupt path:
`increment_tick()` (a wrapping `u64` increment), then `check_timers()` — the
heap pops exactly the set of timers with `expires_at ≤ current_tick` into
`PENDING_QUEUE` and raises the softirq — then, on interrupt exit,
`do_softirq()`/`process_pending_timers()` drains `PENDING_QUEUE`, invoking
and consuming each callback once.  (When `check_timers` moved nothing and
the pending queue was already empty, the softirq flag is not raised and the
drain does not run; this is observationally the same as draining an empty
queue, so the drain is modelled unconditionally.) -/
def tickStep (s : TimerState) : TimerState :=
  let t := (s.tick + 1) % U64LIM
  let expired := s.queue.filter (fun tm => decide (tm.expires_at ≤ t))
  let rest := s.queue.filter (fun tm => decide (t < tm.expires_at))
  { tick := t, queue := rest, pending := [],
    fired := s.fired ++ (s.pending ++ expired).map TimerEntry.id }

/-- `n` consecutive timer ticks. -/
def runTicks : Nat → TimerState → TimerState
  | 0, s => s
  | n + 1, s => runTicks n (tickStep s)

/-- Number of timers with id `id` in a timer list. -/
def countId (id : Nat) (l : List TimerEntry) : Nat :=
  l.countP (fun tm => decide (tm.id = id))

/-! ## Tasks (`kernel/src/sched/task.rs`) -/

/-- `task.rs::TaskError`. -/
inductive TaskError where
  | InvalidPriority
  | StackAllocationFailed
  | InvalidStackAddress
  | ContextInitFailed
  | QueueFull
deriving DecidableEq, Repr

/-- `task.rs::TaskState`. -/
inductive TaskState where
  | Running
  | Ready
  | Blocked
  | Terminated
deriving DecidableEq, Repr

/-- `task.rs::SchedulingClass`. -/
inductive SchedulingClass where
  | Realtime
  | Normal
  | Idle
deriving DecidableEq, Repr

/-- `rt_priority::MIN = 1` (task.rs). -/
def rt_priority_MIN : Nat := 1

/-- `rt_priority::MAX = 99` (task.rs). -/
def rt_priority_MAX : Nat := 99

/-- The `PRIO_TO_WEIGHT` table of `task.rs::nice_to_weight`
(Linux `sched_prio_to_weight`); index 0 = nice −20, index 39 = nice +19. -/
def PRIO_TO_WEIGHT : List Nat := [
  88761, 71755, 56483, 46273, 36291, 29154, 23254, 18705, 14949, 11916, 9548, 7620, 6100,
  4904, 3906, 3121, 2501, 1991, 1586, 1277, 1024, 820, 655, 526, 423, 335, 272, 215, 172,
  137, 110, 87, 70, 56, 45, 36, 29, 23, 18, 15]

/-- `task.rs::nice_to_weight`: clamp the `i8` nice value to `[-20, 19]` and
index the table at `clamped - (-20)`.  (The index is always `< 40` after
clamping; the out-of-range default `0` of `getD` is unreachable.) -/
def nice_to_weight (nice : Int) : Nat :=
  let clamped := if nice < -20 then -20 else if nice > 19 then (19 : Int) else nice
  PRIO_TO_WEIGHT.getD (clamped + 20).toNat 0

/-- `task.rs::Task` (the task control block).  The `name` string, the owned
stack and the saved CPU `context` play no role in the claims and are omitted;
all scheduling-relevant fields are kept. -/
structure Task where
  id : Nat
  sched_class : SchedulingClass
  nice : Int
  rt_priority : Nat
  weight : Nat
  vruntime : Nat
  state : TaskState
deriving DecidableEq, Repr

/-- `task.rs::Task::update_vruntime`:
`increment = (delta * BASE_WEIGHT) / weight` with `BASE_WEIGHT = 1024`
(a wrapping `u64` multiplication), accumulated with `saturating_add`;
no-op when `weight == 0`. -/
def Task.update_vruntime (t : Task) (delta : Nat) : Task :=
  if t.weight = 0 then t
  else { t with vruntime := satAdd t.vruntime (wrapMul delta 1024 / t.weight) }

/-- `context.rs::Context::new(entry_point, stack_top)`: returns the initial
saved `rsp`.  The stack writes are irrelevant to the claims; the arithmetic
and every error path are kept: one 8-byte slot for the return address, six
8-byte callee-saved slots, one 8-byte RFLAGS slot, then a 512-byte FXSAVE
area rounded down to 16-byte alignment. -/
def context_new (entry_point stack_top : Nat) : Except TaskError Nat :=
  if stack_top = 0 then .error .InvalidStackAddress
  else if entry_point = 0 then .error .ContextInitFailed
  else if stack_top < 1024 then .error .InvalidStackAddress
  else
    let rsp := stack_top - 8
    if rsp = 0 then .error .InvalidStackAddress
    else
      let rsp := rsp - 8 * 6 - 8
      let rsp := ((rsp - 512) / 16) * 16
      if rsp = 0 ∨ rsp % 16 ≠ 0 then .error .InvalidStackAddress
      else .ok rsp

/-- `task.rs::Task::new_realtime(name, rt_priority, entry_point)`.
`id` stands for the fresh `TaskId::new()`; `stack_top` is the top of the
freshly boxed 16-KiB stack (the claim assumes the box allocation succeeds).
The priority check precedes stack/context setup; on success the stored
priority is `rt_priority.min(rt_priority::MAX)`. -/
def new_realtime (id rt_prio entry_point stack_top : Nat) : Except TaskError Task :=
  if rt_prio < rt_priority_MIN then .error .InvalidPriority
  else
    match context_new entry_point stack_top with
    | .error e => .error e
    | .ok _ctx =>
      .ok { id := id, sched_class := .Realtime, nice := 0,
            rt_priority := min rt_prio rt_priority_MAX,
            weight := 0, vruntime := 0, state := .Ready }

/-! ## The scheduler (`kernel/src/sched/scheduler.rs`)

The three run queues are `BTreeMap`s/`VecDeque`s behind spin mutexes; the
maps are embedded as unordered association lists with `pop_first` scanning
for the least key (exactly `BTreeMap::pop_first`'s observable behaviour) and
`insert` replacing an existing binding of the same key. -/

/-- Lexicographic order on `BTreeMap` keys `(u8, u64)` / `(u64, u64)`. -/
def keyLe (a b : Nat × Nat) : Prop :=
  a.1 < b.1 ∨ (a.1 = b.1 ∧ a.2 ≤ b.2)

instance (a b : Nat × Nat) : Decidable (keyLe a b) := by
  unfold keyLe; infer_instance

/-- `BTreeMap::pop_first`: remove and return the entry with the least key. -/
def popFirst {α : Type} : List ((Nat × Nat) × α) →
    Option (((Nat × Nat) × α) × List ((Nat × Nat) × α))
  | [] => none
  | x :: xs =>
    match popFirst xs with
    | none => some (x, [])
    | some (m, rest) =>
      if keyLe x.1 m.1 then some (x, xs) else some (m, x :: rest)

/-- `BTreeMap::insert`: replace the binding of an existing key, else add. -/
def insertMap {α : Type} : List ((Nat × Nat) × α) → Nat × Nat → α →
    List ((Nat × Nat) × α)
  | [], k, v => [(k, v)]
  | (k', v') :: rest, k, v =>
    if k' = k then (k, v) :: rest else (k', v') :: insertMap rest k v

/-- `BTreeMap<u64, _>::insert` for `BLOCKED_TASKS`. -/
def insertBlocked : List (Nat × Task) → Nat → Task → List (Nat × Task)
  | [], k, v => [(k, v)]
  | (k', v') :: rest, k, v =>
    if k' = k then (k, v) :: rest else (k', v') :: insertBlocked rest k v

/-- `BTreeMap<u64, _>::remove` for `BLOCKED_TASKS`: the removed value and
the remaining map, or `none`. -/
def lookupRemove : List (Nat × Task) → Nat → Option (Task × List (Nat × Task))
  | [], _ => none
  | (k', v) :: rest, k =>
    if k' = k then some (v, rest)
    else
      match lookupRemove rest k with
      | some (t, rest') => some (t, (k', v) :: rest')
      | none => none

/-- The RT-queue key `(rt_priority::MAX - rt_priority, task_id)`
(`enqueue_task_single`; RT tasks always have `rt_priority ≤ 99`, so the `u8`
subtraction does not underflow). -/
def rtKey (t : Task) : Nat × Nat := (rt_priority_MAX - t.rt_priority, t.id)

/-- The CFS-queue key `(vruntime, task_id)` (`enqueue_task_single`). -/
def cfsKey (t : Task) : Nat × Nat := (t.vruntime, t.id)

/-- The scheduler-visible global state: the three run queues,
`CURRENT_TASK`, `BLOCKED_TASKS`, `WAKEUP_PENDING` and
`ACCUMULATED_RUNTIME`. -/
structure SchedState where
  rt : List ((Nat × Nat) × Task)
  cfs : List ((Nat × Nat) × Task)
  idle : List Task
  current : Option Task
  blocked : List (Nat × Task)
  wakeup_pending : List Nat
  accumulated_runtime : Nat
deriving DecidableEq, Repr

/-- `scheduler.rs::enqueue_task_single`: route a task to the queue of its
scheduling class under the class-specific key. -/
def enqueue_task_single (s : SchedState) (task : Task) : SchedState :=
  match task.sched_class with
  | .Realtime => { s with rt := insertMap s.rt (rtKey task) task }
  | .Normal => { s with cfs := insertMap s.cfs (cfsKey task) task }
  | .Idle => { s with idle := s.idle ++ [task] }

/-- `scheduler.rs::enqueue_to_appropriate_queue`: same queue routing as
`enqueue_task_single` (the two Rust functions have identical bodies and
differ only in locking discipline, which the sequential model elides). -/
def enqueue_to_appropriate_queue (s : SchedState) (task : Task) : SchedState :=
  enqueue_task_single s task

/-- Phase 1 of `scheduler.rs::schedule`: staged queue inspection —
`RT_QUEUE.pop_first()`, else `CFS_QUEUE.pop_first()`, else
`IDLE_QUEUE.pop_front()`. -/
def pickNext (s : SchedState) : Option (Task × SchedState) :=
  match popFirst s.rt with
  | some (e, rt') => some (e.2, { s with rt := rt' })
  | none =>
    match popFirst s.cfs with
    | some (e, cfs') => some (e.2, { s with cfs := cfs' })
    | none =>
      match s.idle with
      | t :: rest => some (t, { s with idle := rest })
      | [] => none

/-- Phases 2–3 of `scheduler.rs::schedule`, given the picked task `next` and
the state `s1` left by phase 1: mark `next` `Running`, swap out
`ACCUMULATED_RUNTIME`, fold it into a Normal outgoing task's `vruntime`,
demote a `Running` outgoing task to `Ready`, install `next` as
`CURRENT_TASK`, and route the outgoing task (drop a `Terminated` one, move a
`Blocked` one to `BLOCKED_TASKS`, re-enqueue any other).  On the very first
dispatch (`CURRENT_TASK` empty) only `next` is installed. -/
def scheduleTail (s1 : SchedState) (next : Task) : SchedState × Bool :=
  let next := { next with state := TaskState.Running }
  match s1.current with
  | some old_task =>
    let accumulated := s1.accumulated_runtime
    let s2 := { s1 with accumulated_runtime := 0 }
    let old_task :=
      if old_task.sched_class = .Normal then
        old_task.update_vruntime (if accumulated > 0 then accumulated else 1)
      else old_task
    let old_task :=
      if old_task.state = .Running then { old_task with state := .Ready }
      else old_task
    let s3 := { s2 with current := some next }
    let s4 :=
      match old_task.state with
      | .Terminated => s3
      | .Blocked => { s3 with blocked := insertBlocked s3.blocked old_task.id old_task }
      | _ => enqueue_task_single s3 old_task
    (s4, true)
  | none => ({ s1 with current := some next }, true)

/-- `scheduler.rs::schedule`: pick the next task (phase 1, `pickNext`); on
empty queues return with no effect; otherwise run phases 2–3
(`scheduleTail`).  The returned `Bool` tells whether `switch_context` was
reached. -/
def schedule (s : SchedState) : SchedState × Bool :=
  match pickNext s with
  | none => (s, false)
  | some (next, s1) => scheduleTail s1 next

/-! ## Blocking and wake-ups (`kernel/src/sched/blocking.rs`) -/

/-- `BTreeSet<u64>::remove` for `WAKEUP_PENDING`. -/
def removeSet (l : List Nat) (x : Nat) : List Nat := l.filter (fun y => decide (y ≠ x))

/-- `BTreeSet<u64>::insert` for `WAKEUP_PENDING`. -/
def insertSet (l : List Nat) (x : Nat) : List Nat := if x ∈ l then l else l ++ [x]

/-- `blocking.rs::block_current_task`: in one interrupt-disabled critical
section, either consume a pending wakeup for the current task (removing its
id from `WAKEUP_PENDING` and returning `should_block = false`, so no
blocking happens), or set the current task's state to `Blocked`
(`should_block = true`); in the latter case `schedule()` runs afterwards.
The two control paths are embedded directly. -/
def block_current_task (s : SchedState) : SchedState :=
  match s.current with
  | some task =>
    if task.id ∈ s.wakeup_pending then
      { s with wakeup_pending := removeSet s.wakeup_pending task.id }
    else
      (schedule { s with current := some { task with state := TaskState.Blocked } }).1
  | none => s

/-- `blocking.rs::unblock_task(task_id)`: remove the task from
`BLOCKED_TASKS`, mark it `Ready` and enqueue it to its class queue; if it is
not blocked yet, record the wakeup in `WAKEUP_PENDING`. -/
def unblock_task (s : SchedState) (task_id : Nat) : SchedState :=
  match lookupRemove s.blocked task_id with
  | some (task, blocked') =>
    enqueue_to_appropriate_queue { s with blocked := blocked' }
      { task with state := TaskState.Ready }
  | none => { s with wakeup_pending := insertSet s.wakeup_pending task_id }

/-! ## The slab allocator (`src/allocator.rs`) -/

/-- `allocator.rs::SIZE_CLASSES`. -/
def SIZE_CLASSES : List Nat := [8, 16, 32, 64, 128, 256, 512, 1024, 2048, 4096]

/-- `allocator.rs::NUM_SIZE_CLASSES` (= `SIZE_CLASSES.len()`). -/
def NUM_SIZE_CLASSES : Nat := 10

/-- `allocator.rs::align_down`: `addr & !(align - 1)`; bitwise `!x` on
`usize` is `2^64 - 1 - x`. -/
def align_down (addr align : Nat) : Nat :=
  Nat.land addr (U64LIM - 1 - (align - 1))

/-- `allocator.rs::align_up`: `(addr + align - 1) & !(align - 1)` (the
addition is a wrapping `usize` addition). -/
def align_up (addr align : Nat) : Nat :=
  Nat.land (wrapAdd addr (align - 1)) (U64LIM - 1 - (align - 1))

/-- `allocator.rs::SlabCache::add_slab` acting on a freelist: carve
`slab_size / block_size` blocks at `slab_start + i * block_size` and
`deallocate` (push) each onto the LIFO freelist, in increasing `i`. -/
def add_slab (free_list : List Nat) (block_size slab_start slab_size : Nat) : List Nat :=
  (List.range (slab_size / block_size)).foldl
    (fun fl i => (slab_start + i * block_size) :: fl) free_list

/-- The allocator state: the per-class freelists (index `i` for
`SIZE_CLASSES[i]`, list head = freelist head) and the bump region. -/
structure SlabState where
  free_lists : List (List Nat)
  large_alloc_next : Nat
  large_alloc_end : Nat
deriving DecidableEq, Repr

/-- `allocator.rs::SlabAllocator::init(heap_start, heap_size)`: split the
heap in halves, carve the first half evenly into the ten class slabs
(each truncated to `align_down(slab_size, size)`, advancing `current`), and
point the bump region at the second half. -/
def slabInit (heap_start heap_size : Nat) : SlabState :=
  let slab_region_size := heap_size / 2
  let lists_current := SIZE_CLASSES.foldl
    (fun (acc : List (List Nat) × Nat) size =>
      let slab_size := slab_region_size / NUM_SIZE_CLASSES
      let aligned_size := align_down slab_size size
      (acc.1 ++ [add_slab [] size acc.2 aligned_size], acc.2 + aligned_size))
    ([], heap_start)
  { free_lists := lists_current.1,
    large_alloc_next := heap_start + slab_region_size,
    large_alloc_end := heap_start + heap_size }

/-- `allocator.rs::SlabAllocator::size_to_class`: position of the first size
class `≥ size`. -/
def size_to_class (size : Nat) : Option Nat :=
  SIZE_CLASSES.findIdx? (fun s => decide (size ≤ s))

/-- `allocator.rs::SlabAllocator::allocate_large`: bump allocation in the
second half; `align_up` the cursor, `saturating_add` the size, fail (null)
when the end is exceeded. -/
def allocate_large (st : SlabState) (size align : Nat) : Option Nat × SlabState :=
  let alloc_start := align_up st.large_alloc_next align
  let alloc_end := satAdd alloc_start size
  if st.large_alloc_end < alloc_end then (none, st)
  else (some alloc_start, { st with large_alloc_next := alloc_end })

/-- `allocator.rs::SlabAllocator::alloc(layout)`: try the size class of
`max(layout.size, layout.align)` (pop the freelist head), falling back to
the bump region on a missing class or an empty freelist. -/
def alloc (st : SlabState) (size align : Nat) : Option Nat × SlabState :=
  let sz := max size align
  match size_to_class sz with
  | some class_idx =>
    match st.free_lists.getD class_idx [] with
    | ptr :: rest =>
      (some ptr, { st with free_lists := st.free_lists.set class_idx rest })
    | [] => allocate_large st size align
  | none => allocate_large st size align

/-- Propositional equality on `Except` values is decidable (needed to `decide`
concrete runs of the fallible conversions). -/
instance {ε α : Type} [DecidableEq ε] [DecidableEq α] : DecidableEq (Except ε α) :=
  fun x y =>
    match x, y with
    | .error a, .error b =>
      if h : a = b then isTrue (congrArg Except.error h)
      else isFalse (fun hh => h (by injection hh))
    | .error _, .ok _ => isFalse (fun hh => Except.noConfusion hh)
    | .ok _, .error _ => isFalse (fun hh => Except.noConfusion hh)
    | .ok a, .ok b =>
      if h : a = b then isTrue (congrArg Except.ok h)
      else isFalse (fun hh => h (by injection hh))

/-! ### Concrete fixtures

Small concrete tasks and scheduler states used to instantiate the theorems
on executable inputs. -/

/-- A Realtime task, priority 5, id 10. -/
def sampleRtA : Task :=
  { id := 10, sched_class := .Realtime, nice := 0, rt_priority := 5,
    weight := 0, vruntime := 0, state := .Ready }

/-- A Realtime task, priority 2, id 3. -/
def sampleRtB : Task :=
  { id := 3, sched_class := .Realtime, nice := 0, rt_priority := 2,
    weight := 0, vruntime := 0, state := .Ready }

/-- A Normal task, nice 0 (weight 1024), currently running. -/
def sampleNormal : Task :=
  { id := 1, sched_class := .Normal, nice := 0, rt_priority := 0,
    weight := 1024, vruntime := 0, state := .Running }

/-- An Idle-class task. -/
def sampleIdle : Task :=
  { id := 2, sched_class := .Idle, nice := 19, rt_priority := 0,
    weight := 15, vruntime := 0, state := .Ready }

/-- A state with two queued Realtime tasks. -/
def sampleSched : SchedState :=
  { rt := [(rtKey sampleRtA, sampleRtA), (rtKey sampleRtB, sampleRtB)],
    cfs := [], idle := [], current := none, blocked := [],
    wakeup_pending := [], accumulated_runtime := 0 }

/-- A state with a running Normal task and a queued Idle task. -/
def sampleSched2 : SchedState :=
  { rt := [], cfs := [], idle := [sampleIdle], current := some sampleNormal,
    blocked := [], wakeup_pending := [], accumulated_runtime := 10 }

/-- Like `sampleSched2` but with an empty accumulated runtime. -/
def sampleSched3 : SchedState :=
  { rt := [], cfs := [], idle := [sampleIdle], current := some sampleNormal,
    blocked := [], wakeup_pending := [], accumulated_runtime := 0 }

/-! ## Claims about the address conversions -/

/-- C4 (counterexample): physical address 0 is mapped by `paging::init`
(its page-table entry is set for every page base below `actual_max`), yet
the round trip fails on it, because `phys_to_virt(0)` rejects the null
address.  This refutes the claim for `P = 0`. -/
theorem c4_counterexample :
    pageMapped MAX_SUPPORTED_MEMORY 0 = true ∧
    physRoundtrip 0 = .error .InvalidAddress ∧
    physRoundtrip 0 ≠ .ok 0 := by
  refine ⟨by decide, by decide, by decide⟩

/-- C4 (amended): for every physical address `P` with `0 < P < actual_max`
and `actual_max ≤ 4 GiB`, `virt_to_phys(phys_to_virt(P))` returns `Ok(P)`. -/
theorem c4_roundtrip (p actual_max : Nat) (hmax : actual_max ≤ MAX_SUPPORTED_MEMORY)
    (hp : 0 < p) (hlt : p < actual_max) :
    physRoundtrip p = .ok p := by
  have hp32 : p < 2 ^ 32 := by
    have : MAX_SUPPORTED_MEMORY = 2 ^ 32 := by norm_num [MAX_SUPPORTED_MEMORY]
    omega
  have hnolap : p + KERNEL_VIRTUAL_BASE < U64LIM := by
    have h1 : KERNEL_VIRTUAL_BASE = 2 ^ 64 - 2 ^ 47 := by norm_num [KERNEL_VIRTUAL_BASE]
    have h2 : U64LIM = 2 ^ 64 := by norm_num [U64LIM]
    have h3 : (2 : Nat) ^ 32 < 2 ^ 47 := by norm_num
    omega
  have h1 : phys_to_virt p = .ok (p + KERNEL_VIRTUAL_BASE) := by
    unfold phys_to_virt wrapAdd
    rw [if_neg hp.ne', Nat.mod_eq_of_lt hnolap]
  have hge : ¬ p + KERNEL_VIRTUAL_BASE < KERNEL_VIRTUAL_BASE := by omega
  have h2 : virt_to_phys (p + KERNEL_VIRTUAL_BASE) = .ok p := by
    unfold virt_to_phys
    rw [if_neg hge]
    rw [checkedSub, if_neg hge, Nat.add_sub_cancel]
  unfold physRoundtrip
  rw [h1]
  exact h2

/-- C4 witness: the amended round trip at `P = 1`, `actual_max = 4 GiB`. -/
theorem c4_roundtrip_witness : physRoundtrip 1 = .ok 1 :=
  c4_roundtrip 1 MAX_SUPPORTED_MEMORY le_rfl one_pos (by norm_num [MAX_SUPPORTED_MEMORY])

/-- C5 (counterexample): `phys_to_virt` performs no upper-range check.  At
`P = 4 GiB` — at/beyond the mapped range, since `actual_max ≤ 4 GiB` — it
succeeds instead of failing. -/
theorem c5_counterexample :
    (phys_to_virt MAX_SUPPORTED_MEMORY).isOk = true ∧
    pageMapped MAX_SUPPORTED_MEMORY MAX_SUPPORTED_MEMORY = false := by
  constructor <;> decide

/-- C5 (amended): `phys_to_virt(0)` fails; `phys_to_virt(P)` succeeds for
every nonzero `P`, mapped or not (the upper bound is not checked); and
`virt_to_phys(V)` fails exactly for `V < KERNEL_VIRTUAL_BASE`. -/
theorem c5_error_paths :
    phys_to_virt 0 = .error .InvalidAddress ∧
    (∀ p, p ≠ 0 → (phys_to_virt p).isOk = true) ∧
    (∀ v, v < KERNEL_VIRTUAL_BASE → virt_to_phys v = .error .InvalidAddress) ∧
    (∀ v, KERNEL_VIRTUAL_BASE ≤ v → (virt_to_phys v).isOk = true) := by
  refine ⟨by decide, fun p hp => ?_, fun v hv => ?_, fun v hv => ?_⟩
  · simp [phys_to_virt, hp, Except.isOk, Except.toBool]
  · simp [virt_to_phys, hv]
  · simp only [virt_to_phys, if_neg (not_lt.mpr hv), checkedSub,
      if_neg (not_lt.mpr hv)]
    simp [Except.isOk, Except.toBool]

/-- C5 witness: the amended error paths at `P = 7` and `V = 3`. -/
theorem c5_error_paths_witness :
    (phys_to_virt 7).isOk = true ∧ virt_to_phys 3 = .error .InvalidAddress :=
  ⟨c5_error_paths.2.1 7 (by decide), c5_error_paths.2.2.1 3 (by decide)⟩

/-! ## Claims about `sleep_ms` and the timer wheel -/

/-- C3 (counterexample): `ms_to_ticks` rounds down, not up.  With
`freq_hz = 100` and `ms = 15`, `sleep_ms` registers expiry
`start + 1 < start + ceil(15 × 100 / 1000) = start + 2`, and the timer —
whose callback unblocks the sleeper — fires already at tick 1. -/
theorem c3_counterexample :
    sleepExpiry 100 0 15 = 1 ∧
    sleepExpiry 100 0 15 < (15 * 100 + 999) / 1000 ∧
    (runTicks 1 (register_timer ⟨0, [], [], []⟩ (sleepTicks 100 15) 42)).fired = [42] := by
  refine ⟨by decide, by decide, by decide⟩

/-! ### Timer-wheel lemmas -/

theorem countId_append (id : Nat) (l₁ l₂ : List TimerEntry) :
    countId id (l₁ ++ l₂) = countId id l₁ + countId id l₂ :=
  List.countP_append ..

theorem count_map_eq_countId (id : Nat) (l : List TimerEntry) :
    (l.map TimerEntry.id).count id = countId id l := by
  induction l with
  | nil => rfl
  | cons a l ih =>
    simp only [List.map_cons, List.count_cons, countId, List.countP_cons, ih]
    simp [countId]

/-- The `check_timers` filters partition the queue: expired plus not-yet-due
occurrences of an id add up to all its occurrences. -/
theorem countId_filter_partition (id t : Nat) (l : List TimerEntry) :
    countId id (l.filter (fun tm => decide (tm.expires_at ≤ t))) +
      countId id (l.filter (fun tm => decide (t < tm.expires_at))) = countId id l := by
  induction l with
  | nil => rfl
  | cons a l ih =>
    by_cases h : a.expires_at ≤ t
    · have h' : ¬ t < a.expires_at := by omega
      simp only [List.filter_cons]
      rw [if_pos (by simpa using h), if_neg (by simpa using h')]
      simp only [countId, List.countP_cons] at ih ⊢
      omega
    · have h' : t < a.expires_at := by omega
      simp only [List.filter_cons]
      rw [if_neg (by simpa using h), if_pos (by simpa using h')]
      simp only [countId, List.countP_cons] at ih ⊢
      omega

/-- A tick leaves the invocation count of an id untouched when no timer of
that id is queued or pending. -/
theorem tickStep_absent (id : Nat) (s : TimerState)
    (hq : countId id s.queue = 0) (hp : countId id s.pending = 0) :
    (tickStep s).fired.count id = s.fired.count id ∧
      countId id (tickStep s).queue = 0 ∧ countId id (tickStep s).pending = 0 := by
  have hpart := countId_filter_partition id ((s.tick + 1) % U64LIM) s.queue
  refine ⟨?_, ?_, rfl⟩
  · simp only [tickStep]
    rw [List.count_append, count_map_eq_countId, countId_append]
    omega
  · simp only [tickStep]
    omega

theorem runTicks_absent (id : Nat) (n : Nat) :
    ∀ (s : TimerState), countId id s.queue = 0 → countId id s.pending = 0 →
      (runTicks n s).fired.count id = s.fired.count id := by
  induction n with
  | zero => intro s _ _; rfl
  | succ n ih =>
    intro s hq hp
    obtain ⟨h1, h2, h3⟩ := tickStep_absent id s hq hp
    rw [runTicks, ih (tickStep s) h2 h3, h1]

/-- If the queue holds exactly one timer of id `id`, expiring at `e`, then
after any `n` ticks that reach `e` the callback has run exactly once. -/
theorem fired_once_of_unique (id e : Nat) (he : e + 1 < U64LIM) (n : Nat) :
    ∀ (s : TimerState),
      countId id s.queue = 1 →
      (∀ tm ∈ s.queue, tm.id = id → tm.expires_at = e) →
      s.pending = [] → s.fired.count id = 0 →
      s.tick ≤ e → e ≤ s.tick + n → 1 ≤ n →
      (runTicks n s).fired.count id = 1 := by
  induction n with
  | zero => omega
  | succ n ih =>
    intro s hcnt hexp hp hf hse hen _
    have ht : (s.tick + 1) % U64LIM = s.tick + 1 := Nat.mod_eq_of_lt (by omega)
    have hpart := countId_filter_partition id ((s.tick + 1) % U64LIM) s.queue
    by_cases hfire : e ≤ s.tick + 1
    · -- the unique timer expires now: it is in the expired set
      obtain ⟨tm, htm, htmid⟩ : ∃ tm ∈ s.queue, tm.id = id := by
        by_contra hno
        push_neg at hno
        have : countId id s.queue = 0 :=
          List.countP_eq_zero.mpr (fun tm h => by simpa using hno tm h)
        omega
      have htme : tm.expires_at = e := hexp tm htm htmid
      have hmem : tm ∈ s.queue.filter (fun tm => decide (tm.expires_at ≤ (s.tick + 1) % U64LIM)) :=
        List.mem_filter.mpr ⟨htm, by rw [ht]; simpa [htme] using hfire⟩
      have hexpired :
          0 < countId id (s.queue.filter (fun tm => decide (tm.expires_at ≤ (s.tick + 1) % U64LIM))) :=
        List.countP_pos_iff.mpr ⟨tm, hmem, by simpa using htmid⟩
      have hstep : (tickStep s).fired.count id = 1 := by
        simp only [tickStep]
        rw [List.count_append, count_map_eq_countId, countId_append, hp, hf]
        simp only [countId, List.countP_nil] at *
        omega
      have hq' : countId id (tickStep s).queue = 0 := by
        simp only [tickStep]
        omega
      rw [runTicks, runTicks_absent id n (tickStep s) hq' (by rfl), hstep]
    · -- not due yet: the timer survives the tick untouched
      have hstay :
          countId id (s.queue.filter (fun tm => decide ((s.tick + 1) % U64LIM < tm.expires_at))) = 1 := by
        have hzero :
            countId id (s.queue.filter (fun tm => decide (tm.expires_at ≤ (s.tick + 1) % U64LIM))) = 0 := by
          refine List.countP_eq_zero.mpr (fun tm h => ?_)
          obtain ⟨htm, hdue⟩ := List.mem_filter.mp h
          simp only [decide_eq_true_eq] at hdue ⊢
          intro htmid
          have := hexp tm htm (by simpa using htmid)
          omega
        omega
      have hstep1 : (tickStep s).fired.count id = 0 := by
        simp only [tickStep]
        rw [List.count_append, count_map_eq_countId, countId_append, hp, hf]
        simp only [countId, List.countP_nil] at *
        omega
      have hrest : ∀ tm ∈ (tickStep s).queue, tm.id = id → tm.expires_at = e := by
        simp only [tickStep]
        intro tm h htmid
        exact hexp tm (List.mem_filter.mp h).1 htmid
      have htick : (tickStep s).tick = s.tick + 1 := by
        simp only [tickStep]
        exact ht
      have := ih (tickStep s) hstay hrest (by rfl) hstep1
        (by rw [htick]; omega) (by rw [htick]; omega) (by omega)
      rw [runTicks]
      exact this

/-- Before the unique expiry tick is reached, the callback has not run. -/
theorem not_fired_before (id e : Nat) (he : e < U64LIM) (n : Nat) :
    ∀ (s : TimerState),
      (∀ tm ∈ s.queue, tm.id = id → tm.expires_at = e) →
      countId id s.pending = 0 → s.fired.count id = 0 →
      s.tick + n < e →
      (runTicks n s).fired.count id = 0 := by
  induction n with
  | zero => intro s _ _ hf _; exact hf
  | succ n ih =>
    intro s hexp hp hf hlt
    have ht : (s.tick + 1) % U64LIM = s.tick + 1 := Nat.mod_eq_of_lt (by omega)
    have hzero :
        countId id (s.queue.filter (fun tm => decide (tm.expires_at ≤ (s.tick + 1) % U64LIM))) = 0 := by
      refine List.countP_eq_zero.mpr (fun tm h => ?_)
      obtain ⟨htm, hdue⟩ := List.mem_filter.mp h
      simp only [decide_eq_true_eq] at hdue ⊢
      intro htmid
      have := hexp tm htm (by simpa using htmid)
      omega
    have hstep : (tickStep s).fired.count id = 0 := by
      simp only [tickStep]
      rw [List.count_append, count_map_eq_countId, countId_append]
      simp only [countId, List.countP_nil] at *
      omega
    have hrest : ∀ tm ∈ (tickStep s).queue, tm.id = id → tm.expires_at = e := by
      simp only [tickStep]
      intro tm h htmid
      exact hexp tm (List.mem_filter.mp h).1 htmid
    have htick : (tickStep s).tick = s.tick + 1 := by
      simp only [tickStep]
      exact ht
    rw [runTicks]
    exact ih (tickStep s) hrest (by rfl) hstep (by rw [htick]; omega)

/-- C6: `register_timer(d, cb)` followed by `d + 1` timer ticks (each tick
running `check_timers`, then the softirq drain) invokes `cb` exactly once —
and the count stays at one for every later tick, the one-shot callback being
consumed on its first invocation; the timer is moved to the pending queue
(and fired) no later than the tick at which `current_tick` reaches its
expiry.  Hypotheses: no other timer shares the fresh id, and the `u64` tick
counter does not wrap during the wait. -/
theorem c6_register_once (s : TimerState) (d id : Nat)
    (hq : countId id s.queue = 0) (hp : s.pending = [])
    (hf : s.fired.count id = 0) (hov : s.tick + d + 1 < U64LIM) :
    ∀ n, d + 1 ≤ n → (runTicks n (register_timer s d id)).fired.count id = 1 := by
  intro n hn
  have hreg : register_timer s d id =
      { s with queue := s.queue ++ [⟨id, s.tick + d⟩] } := by
    unfold register_timer wrapAdd
    rw [Nat.mod_eq_of_lt (by omega)]
  rw [hreg]
  refine fired_once_of_unique id (s.tick + d) (by omega) n _ ?_ ?_ hp hf ?_ ?_ ?_
  · rw [countId_append, hq]
    simp [countId]
  · intro tm htm htmid
    rcases List.mem_append.mp htm with hin | hin
    · exact absurd htmid (by
        have := List.countP_eq_zero.mp hq tm hin
        simpa using this)
    · simp only [List.mem_singleton] at hin
      rw [hin]
  · show s.tick ≤ s.tick + d
    omega
  · show s.tick + d ≤ s.tick + n
    omega
  · omega

/-- C6 witness: a timer with delay 3 and id 7 registered at tick 0 on an
idle wheel has fired exactly once after 4 ticks, and still exactly once
after 9 ticks. -/
theorem c6_register_once_witness :
    (runTicks 4 (register_timer ⟨0, [], [], []⟩ 3 7)).fired.count 7 = 1 ∧
    (runTicks 9 (register_timer ⟨0, [], [], []⟩ 3 7)).fired.count 7 = 1 :=
  ⟨c6_register_once ⟨0, [], [], []⟩ 3 7 (by decide) rfl (by decide) (by decide) 4 (by decide),
   c6_register_once ⟨0, [], [], []⟩ 3 7 (by decide) rfl (by decide) (by decide) 9 (by decide)⟩

/-- C3 (amended): for `ms > 0` (and no `u64` overflow), `sleep_ms(ms)`
registers a timer whose expiry tick is exactly
`start + max(floor(ms × freq_hz / 1000), 1)` — rounding down, not up — which
is at least `start + 1`; the wakeup callback does not fire at any tick
strictly before that expiry, so the sleeping task resumes no earlier. -/
theorem c3_sleep_floor (frequency start ms id : Nat) (hms : 0 < ms)
    (hmul : ms * frequency < U64LIM)
    (hov : start + sleepTicks frequency ms < U64LIM) :
    sleepExpiry frequency start ms = start + max ((ms * frequency) / 1000) 1 ∧
    start + 1 ≤ sleepExpiry frequency start ms ∧
    (∀ n, start + n < start + sleepTicks frequency ms →
      (runTicks n (register_timer ⟨start, [], [], []⟩
        (sleepTicks frequency ms) id)).fired.count id = 0) := by
  have hticks : sleepTicks frequency ms = max ((ms * frequency) / 1000) 1 := by
    unfold sleepTicks ms_to_ticks wrapMul
    rw [Nat.mod_eq_of_lt hmul]
  have hexp : sleepExpiry frequency start ms = start + sleepTicks frequency ms := by
    unfold sleepExpiry wrapAdd
    rw [Nat.mod_eq_of_lt hov]
  refine ⟨by rw [hexp, hticks], by rw [hexp]; have := Nat.le_max_right ((ms * frequency) / 1000) 1; omega, ?_⟩
  · intro n hn
    have hreg : register_timer ⟨start, [], [], []⟩ (sleepTicks frequency ms) id =
        ⟨start, [⟨id, start + sleepTicks frequency ms⟩], [], []⟩ := by
      unfold register_timer wrapAdd
      rw [Nat.mod_eq_of_lt hov]
      rfl
    rw [hreg]
    refine not_fired_before id (start + sleepTicks frequency ms) (by omega) n _ ?_ rfl rfl hn
    intro tm htm _
    simp only [List.mem_singleton] at htm
    rw [htm]

/-- C3 witness: the amended expiry at `freq_hz = 100`, `ms = 15`:
expiry `0 + max(1, 1) = 1` and no firing before tick 1. -/
theorem c3_sleep_floor_witness :
    sleepExpiry 100 0 15 = 0 + max ((15 * 100) / 1000) 1 ∧
    (runTicks 0 (register_timer ⟨0, [], [], []⟩ (sleepTicks 100 15) 42)).fired.count 42 = 0 :=
  ⟨(c3_sleep_floor 100 0 15 42 (by decide) (by decide) (by decide)).1,
   (c3_sleep_floor 100 0 15 42 (by decide) (by decide) (by decide)).2.2 0 (by decide)⟩

/-! ## Claims about task creation -/

/-- C9: `Task::new_realtime` returns `Err(InvalidPriority)` exactly for
`rt_priority < 1` (stack allocation and context initialization succeeding),
and for every `rt_priority > 99` it succeeds, silently clamping the stored
`rt_priority` to 99. -/
theorem c9_new_realtime (id p entry stack_top : Nat)
    (hctx : (context_new entry stack_top).isOk = true) :
    (new_realtime id p entry stack_top = .error .InvalidPriority ↔ p < 1) ∧
    (99 < p → new_realtime id p entry stack_top =
      .ok { id := id, sched_class := .Realtime, nice := 0, rt_priority := 99,
            weight := 0, vruntime := 0, state := .Ready }) := by
  unfold new_realtime
  by_cases hp : p < rt_priority_MIN
  · rw [if_pos hp]
    constructor
    · simp [rt_priority_MIN] at hp ⊢
      omega
    · intro h99
      exact absurd hp (by simp [rt_priority_MIN]; omega)
  · rw [if_neg hp]
    obtain ⟨r, hr⟩ : ∃ r, context_new entry stack_top = .ok r := by
      cases h : context_new entry stack_top with
      | ok r => exact ⟨r, rfl⟩
      | error e => rw [h] at hctx; simp [Except.isOk, Except.toBool] at hctx
    rw [hr]
    constructor
    · constructor
      · intro h
        exact absurd h (by simp)
      · intro h
        exact absurd h (by simp [rt_priority_MIN] at hp ⊢; omega)
    · intro h99
      have : min p rt_priority_MAX = 99 := by
        simp [rt_priority_MAX]
        omega
      rw [this]

/-- C9 witness: `rt_priority = 150` with a healthy stack clamps to 99;
`rt_priority = 0` is the invalid-priority error. -/
theorem c9_new_realtime_witness :
    (99 < 150 → new_realtime 1 150 1 (2 ^ 40) =
      .ok { id := 1, sched_class := .Realtime, nice := 0, rt_priority := 99,
            weight := 0, vruntime := 0, state := .Ready }) ∧
    (new_realtime 1 0 1 (2 ^ 40) = .error .InvalidPriority ↔ (0 : Nat) < 1) :=
  ⟨(c9_new_realtime 1 150 1 (2 ^ 40) (by decide)).2,
   (c9_new_realtime 1 0 1 (2 ^ 40) (by decide)).1⟩

/-! ## Claims about the scheduler -/

/-- C10: when all three run queues are empty, `schedule()` returns without a
context switch and with the entire scheduler state — `CURRENT_TASK`,
`BLOCKED_TASKS`, the queues, the wakeup-pending set and the accumulated
runtime — unchanged. -/
theorem c10_schedule_empty (s : SchedState)
    (h1 : s.rt = []) (h2 : s.cfs = []) (h3 : s.idle = []) :
    schedule s = (s, false) := by
  unfold schedule pickNext
  rw [h1, h2, h3]
  rfl

/-- C10 witness: the empty-queue early return on a concrete state. -/
theorem c10_schedule_empty_witness :
    schedule { rt := [], cfs := [], idle := [], current := none, blocked := [],
               wakeup_pending := [], accumulated_runtime := 5 } =
      ({ rt := [], cfs := [], idle := [], current := none, blocked := [],
         wakeup_pending := [], accumulated_runtime := 5 }, false) :=
  c10_schedule_empty _ rfl rfl rfl

/-! ### Run-queue order lemmas -/

theorem keyLe_refl (a : Nat × Nat) : keyLe a a := Or.inr ⟨rfl, le_rfl⟩

theorem keyLe_trans {a b c : Nat × Nat} (h1 : keyLe a b) (h2 : keyLe b c) :
    keyLe a c := by
  unfold keyLe at *
  omega

theorem keyLe_total (a b : Nat × Nat) : keyLe a b ∨ keyLe b a := by
  unfold keyLe
  omega

theorem popFirst_eq_none {α : Type} (l : List ((Nat × Nat) × α)) :
    popFirst l = none ↔ l = [] := by
  cases l with
  | nil => simp [popFirst]
  | cons x xs =>
    constructor
    · intro h
      simp only [popFirst] at h
      split at h <;> (try split at h) <;> simp_all
    · intro h
      simp at h

theorem popFirst_mem {α : Type} {l : List ((Nat × Nat) × α)}
    {e : (Nat × Nat) × α} {rest : List ((Nat × Nat) × α)}
    (h : popFirst l = some (e, rest)) : e ∈ l := by
  induction l generalizing e rest with
  | nil => simp [popFirst] at h
  | cons x xs ih =>
    simp only [popFirst] at h
    split at h
    · -- popFirst xs = none: the head is the minimum
      simp only [Option.some.injEq, Prod.mk.injEq] at h
      rw [← h.1]
      exact List.mem_cons_self x xs
    · rename_i m r h'
      split at h <;> simp only [Option.some.injEq, Prod.mk.injEq] at h
      · rw [← h.1]
        exact List.mem_cons_self x xs
      · rw [← h.1]
        exact List.mem_cons_of_mem x (ih h')

theorem popFirst_min {α : Type} {l : List ((Nat × Nat) × α)}
    {e : (Nat × Nat) × α} {rest : List ((Nat × Nat) × α)}
    (h : popFirst l = some (e, rest)) : ∀ x ∈ l, keyLe e.1 x.1 := by
  induction l generalizing e rest with
  | nil => simp [popFirst] at h
  | cons x xs ih =>
    simp only [popFirst] at h
    split at h
    · rename_i h'
      simp only [Option.some.injEq, Prod.mk.injEq] at h
      have hnil : xs = [] := (popFirst_eq_none xs).mp h'
      intro y hy
      rw [hnil] at hy
      simp only [List.mem_singleton] at hy
      rw [← h.1, hy]
      exact keyLe_refl x.1
    · rename_i m r h'
      have hmin : ∀ y ∈ xs, keyLe m.1 y.1 := ih h'
      split at h <;> simp only [Option.some.injEq, Prod.mk.injEq] at h
      · rename_i hk
        intro y hy
        rw [← h.1]
        rcases List.mem_cons.mp hy with rfl | hy'
        · exact keyLe_refl y.1
        · exact keyLe_trans hk (hmin y hy')
      · rename_i hk
        intro y hy
        rw [← h.1]
        rcases List.mem_cons.mp hy with rfl | hy'
        · rcases keyLe_total m.1 y.1 with hh | hh
          · exact hh
          · exact absurd hh hk
        · exact hmin y hy'

/-- C1: `schedule()`'s phase-1 pick follows strict class priority.  It picks
nothing only when all three queues are empty; if the Realtime queue is
nonempty the picked task comes from it and has the highest `rt_priority`
(lowest id as tiebreak); a Normal task is picked only when the Realtime
queue is empty, and then has the smallest `vruntime` (lowest id as tiebreak);
an Idle task is picked only when both are empty, in FIFO order (the queue
front).  The hypotheses state the key invariant maintained by the enqueue
functions: every queue entry is keyed by `(rt_priority::MAX − rt_priority,
id)` resp. `(vruntime, id)`, with Realtime priorities in `[1, 99]`. -/
theorem c1_schedule_pick (s : SchedState)
    (hrt : ∀ e ∈ s.rt, e.1 = rtKey e.2 ∧
      rt_priority_MIN ≤ e.2.rt_priority ∧ e.2.rt_priority ≤ rt_priority_MAX)
    (hcfs : ∀ e ∈ s.cfs, e.1 = cfsKey e.2) :
    (pickNext s = none ↔ s.rt = [] ∧ s.cfs = [] ∧ s.idle = []) ∧
    (∀ t s1, pickNext s = some (t, s1) →
      (s.rt ≠ [] → (∃ e ∈ s.rt, e.2 = t) ∧
        ∀ e ∈ s.rt, e.2.rt_priority < t.rt_priority ∨
          (e.2.rt_priority = t.rt_priority ∧ t.id ≤ e.2.id)) ∧
      (s.rt = [] → s.cfs ≠ [] → (∃ e ∈ s.cfs, e.2 = t) ∧
        ∀ e ∈ s.cfs, t.vruntime < e.2.vruntime ∨
          (t.vruntime = e.2.vruntime ∧ t.id ≤ e.2.id)) ∧
      (s.rt = [] → s.cfs = [] → s.idle.head? = some t)) := by
  constructor
  · constructor
    · intro h
      unfold pickNext at h
      cases hr : popFirst s.rt with
      | some e => rw [hr] at h; simp at h
      | none =>
        rw [hr] at h
        cases hc : popFirst s.cfs with
        | some e => rw [hc] at h; simp at h
        | none =>
          rw [hc] at h
          cases hi : s.idle with
          | cons t0 rest => rw [hi] at h; simp at h
          | nil => exact ⟨(popFirst_eq_none _).mp hr, (popFirst_eq_none _).mp hc, rfl⟩
    · rintro ⟨h1, h2, h3⟩
      unfold pickNext
      rw [show popFirst s.rt = none from (popFirst_eq_none _).mpr h1]
      rw [show popFirst s.cfs = none from (popFirst_eq_none _).mpr h2]
      rw [h3]
  · intro t s1 hpick
    refine ⟨?_, ?_, ?_⟩
    · -- Realtime queue nonempty: the pick is its least key
      intro hne
      cases hr : popFirst s.rt with
      | none => exact absurd ((popFirst_eq_none _).mp hr) hne
      | some p =>
        obtain ⟨e, rt'⟩ := p
        unfold pickNext at hpick
        rw [hr] at hpick
        simp only [Option.some.injEq, Prod.mk.injEq] at hpick
        have hmem := popFirst_mem hr
        have hmin := popFirst_min hr
        have het : e.2 = t := hpick.1
        subst het
        refine ⟨⟨e, hmem, rfl⟩, fun x hx => ?_⟩
        have hkey := hmin x hx
        obtain ⟨hek, he1, he2⟩ := hrt e hmem
        obtain ⟨hxk, hx1, hx2⟩ := hrt x hx
        rw [hek, hxk] at hkey
        unfold keyLe rtKey at hkey
        simp only at hkey
        unfold rt_priority_MAX rt_priority_MIN at *
        omega
    · -- Realtime empty, CFS nonempty: least vruntime
      intro h1 hne
      cases hc : popFirst s.cfs with
      | none => exact absurd ((popFirst_eq_none _).mp hc) hne
      | some p =>
        obtain ⟨e, cfs'⟩ := p
        unfold pickNext at hpick
        rw [show popFirst s.rt = none from (popFirst_eq_none _).mpr h1, hc] at hpick
        simp only [Option.some.injEq, Prod.mk.injEq] at hpick
        have hmem := popFirst_mem hc
        have hmin := popFirst_min hc
        have het : e.2 = t := hpick.1
        subst het
        refine ⟨⟨e, hmem, rfl⟩, fun x hx => ?_⟩
        have hkey := hmin x hx
        rw [hcfs e hmem, hcfs x hx] at hkey
        unfold keyLe cfsKey at hkey
        simp only at hkey
        omega
    · -- both empty: FIFO front of the Idle queue
      intro h1 h2
      unfold pickNext at hpick
      rw [show popFirst s.rt = none from (popFirst_eq_none _).mpr h1] at hpick
      rw [show popFirst s.cfs = none from (popFirst_eq_none _).mpr h2] at hpick
      cases hi : s.idle with
      | nil => rw [hi] at hpick; simp at hpick
      | cons t0 rest =>
        rw [hi] at hpick
        simp only [Option.some.injEq, Prod.mk.injEq] at hpick
        rw [List.head?_cons, hpick.1]

/-- C1 witness: on a state with two Realtime tasks (priorities 5 and 2),
the pick is the priority-5 task, and the priority comparison against the
other queued entry holds concretely. -/
theorem c1_schedule_pick_witness :
    sampleRtB.rt_priority < sampleRtA.rt_priority ∨
      (sampleRtB.rt_priority = sampleRtA.rt_priority ∧ sampleRtA.id ≤ sampleRtB.id) :=
  (((c1_schedule_pick sampleSched (by decide) (by decide)).2 sampleRtA
      { sampleSched with rt := [(rtKey sampleRtB, sampleRtB)] }
      (by decide)).1 (by decide)).2 (rtKey sampleRtB, sampleRtB) (by decide)

/-! ### Weight and frame lemmas for the vruntime update -/

/-- Every entry of the `sched_prio_to_weight` table is positive, so
`nice_to_weight` never returns 0 (its index is in range after clamping). -/
theorem nice_to_weight_pos (n : Int) : 0 < nice_to_weight n := by
  unfold nice_to_weight
  have hidx : ((if n < -20 then (-20 : Int) else if n > 19 then 19 else n) + 20).toNat ≤ 39 := by
    split_ifs <;> omega
  have hall : ∀ i, i ≤ 39 → 0 < PRIO_TO_WEIGHT.getD i 0 := by decide
  exact hall _ hidx

/-- Phase 1 of `schedule` only pops a run queue: `CURRENT_TASK`,
`BLOCKED_TASKS`, `WAKEUP_PENDING` and `ACCUMULATED_RUNTIME` are untouched. -/
theorem pickNext_frame {s : SchedState} {t : Task} {s1 : SchedState}
    (h : pickNext s = some (t, s1)) :
    s1.current = s.current ∧ s1.blocked = s.blocked ∧
    s1.wakeup_pending = s.wakeup_pending ∧
    s1.accumulated_runtime = s.accumulated_runtime := by
  unfold pickNext at h
  split at h
  · simp only [Option.some.injEq, Prod.mk.injEq] at h
    rw [← h.2]
    exact ⟨rfl, rfl, rfl, rfl⟩
  · split at h
    · simp only [Option.some.injEq, Prod.mk.injEq] at h
      rw [← h.2]
      exact ⟨rfl, rfl, rfl, rfl⟩
    · split at h
      · simp only [Option.some.injEq, Prod.mk.injEq] at h
        rw [← h.2]
        exact ⟨rfl, rfl, rfl, rfl⟩
      · exact absurd h (by simp)

/-- `BTreeMap::insert` makes the inserted binding a member. -/
theorem insertMap_mem_self {α : Type} (l : List ((Nat × Nat) × α)) (k : Nat × Nat) (v : α) :
    (k, v) ∈ insertMap l k v := by
  induction l with
  | nil => simp [insertMap]
  | cons x xs ih =>
    obtain ⟨k', v'⟩ := x
    simp only [insertMap]
    split
    · exact List.mem_cons_self _ _
    · exact List.mem_cons_of_mem _ ih

/-- C7: on a scheduling decision with an outgoing Normal task (the running
one), the runtime delta is `ACCUMULATED_RUNTIME.swap(0)` — so the new
accumulated runtime is 0 — substituting 1 when the swapped value is zero,
and the outgoing task is re-enqueued on the CFS queue with
`vruntime += delta * 1024 / weight`, where
`weight = PRIO_TO_WEIGHT[nice + 20]` (`nice_to_weight`).  The overflow-free
hypotheses pin the `u64` arithmetic to its mathematical value. -/
theorem c7_vruntime_update (s : SchedState) (old next : Task) (s1 : SchedState)
    (hcur : s.current = some old)
    (hclass : old.sched_class = .Normal)
    (hstate : old.state = .Running)
    (hw : old.weight = nice_to_weight old.nice)
    (hpick : pickNext s = some (next, s1))
    (hdelta : (if 0 < s.accumulated_runtime then s.accumulated_runtime else 1) * 1024 < U64LIM)
    (hsum : old.vruntime + (if 0 < s.accumulated_runtime then s.accumulated_runtime else 1) * 1024 / nice_to_weight old.nice < U64LIM) :
    (schedule s).1.accumulated_runtime = 0 ∧
    ((old.vruntime + (if 0 < s.accumulated_runtime then s.accumulated_runtime else 1) * 1024 / nice_to_weight old.nice, old.id),
      { old with state := TaskState.Ready, vruntime := old.vruntime + (if 0 < s.accumulated_runtime then s.accumulated_runtime else 1) * 1024 / nice_to_weight old.nice }) ∈ (schedule s).1.cfs := by
  have hframe := pickNext_frame hpick
  have hc1 : s1.current = some old := by rw [hframe.1, hcur]
  have hacc : s1.accumulated_runtime = s.accumulated_runtime := hframe.2.2.2
  have hwpos : 0 < nice_to_weight old.nice := nice_to_weight_pos _
  have hupd : Task.update_vruntime old
      (if 0 < s.accumulated_runtime then s.accumulated_runtime else 1) =
      { old with vruntime := old.vruntime + (if 0 < s.accumulated_runtime then s.accumulated_runtime else 1) * 1024 / nice_to_weight old.nice } := by
    unfold Task.update_vruntime
    rw [if_neg (by omega : ¬ old.weight = 0)]
    unfold wrapMul satAdd
    rw [hw, Nat.mod_eq_of_lt hdelta, min_eq_left (by omega)]
  have hs : schedule s = scheduleTail s1 next := by
    unfold schedule
    rw [hpick]
  rw [hs]
  unfold scheduleTail
  rw [hc1]
  simp only [hacc, if_pos hclass, hupd]
  simp only [hstate, eq_self_iff_true, if_true, enqueue_task_single, hclass, cfsKey]
  exact ⟨trivial, insertMap_mem_self ..⟩

/-- C7 witness: a running Normal task (nice 0, weight 1024, vruntime 0) with
10 ns accumulated runtime is re-enqueued with vruntime `10 * 1024 / 1024`. -/
theorem c7_vruntime_update_witness :
    (schedule sampleSched2).1.accumulated_runtime = 0 ∧
    ((sampleNormal.vruntime + (if 0 < sampleSched2.accumulated_runtime then sampleSched2.accumulated_runtime else 1) * 1024 / nice_to_weight sampleNormal.nice, sampleNormal.id),
      { sampleNormal with state := TaskState.Ready, vruntime := sampleNormal.vruntime + (if 0 < sampleSched2.accumulated_runtime then sampleSched2.accumulated_runtime else 1) * 1024 / nice_to_weight sampleNormal.nice })
      ∈ (schedule sampleSched2).1.cfs :=
  c7_vruntime_update sampleSched2 sampleNormal sampleIdle
    { sampleSched2 with idle := [] } rfl rfl rfl (by decide) (by decide)
    (by decide) (by decide)

/-! ### Blocking and wake-up lemmas -/

theorem insertSet_mem (l : List Nat) (x : Nat) : x ∈ insertSet l x := by
  unfold insertSet
  split
  · assumption
  · exact List.mem_append_right l (List.mem_singleton.mpr rfl)

theorem removeSet_insertSet (l : List Nat) (x : Nat) (h : x ∉ l) :
    removeSet (insertSet l x) x = l := by
  unfold insertSet removeSet
  rw [if_neg h, List.filter_append]
  have h1 : l.filter (fun y => decide (y ≠ x)) = l := by
    refine List.filter_eq_self.mpr (fun a ha => ?_)
    simp only [decide_eq_true_eq]
    intro he
    exact h (he ▸ ha)
  have h2 : [x].filter (fun y => decide (y ≠ x)) = [] := by simp
  rw [h1, h2, List.append_nil]

theorem lookupRemove_eq_none (l : List (Nat × Task)) (k : Nat)
    (h : ∀ t ∈ l, t.1 ≠ k) : lookupRemove l k = none := by
  induction l with
  | nil => rfl
  | cons x xs ih =>
    obtain ⟨k', v⟩ := x
    have hk : k' ≠ k := h (k', v) (List.mem_cons_self _ _)
    simp only [lookupRemove]
    rw [if_neg hk, ih (fun t ht => h t (List.mem_cons_of_mem _ ht))]

theorem lookupRemove_insertBlocked (l : List (Nat × Task)) (k : Nat) (v : Task)
    (h : ∀ t ∈ l, t.1 ≠ k) :
    lookupRemove (insertBlocked l k v) k = some (v, l) := by
  induction l with
  | nil => simp [insertBlocked, lookupRemove]
  | cons x xs ih =>
    obtain ⟨k', v'⟩ := x
    have hk : k' ≠ k := h (k', v') (List.mem_cons_self _ _)
    simp only [insertBlocked]
    rw [if_neg hk]
    simp only [lookupRemove]
    rw [if_neg hk, ih (fun t ht => h t (List.mem_cons_of_mem _ ht))]

/-- `enqueue_task_single` touches only the queue of the task's class. -/
theorem enqueue_task_single_frame (s : SchedState) (t : Task) :
    (enqueue_task_single s t).current = s.current ∧
    (enqueue_task_single s t).blocked = s.blocked ∧
    (enqueue_task_single s t).wakeup_pending = s.wakeup_pending ∧
    (enqueue_task_single s t).accumulated_runtime = s.accumulated_runtime := by
  unfold enqueue_task_single
  cases t.sched_class <;> exact ⟨rfl, rfl, rfl, rfl⟩

/-- `enqueue_task_single` files the task in the queue of its class, under
the class key. -/
theorem enqueue_task_single_mem (s : SchedState) (t : Task) :
    (t.sched_class = .Realtime → (rtKey t, t) ∈ (enqueue_task_single s t).rt) ∧
    (t.sched_class = .Normal → (cfsKey t, t) ∈ (enqueue_task_single s t).cfs) ∧
    (t.sched_class = .Idle → t ∈ (enqueue_task_single s t).idle) := by
  unfold enqueue_task_single
  cases hc : t.sched_class
  · exact ⟨fun _ => insertMap_mem_self .., fun h => absurd h (by simp [hc]),
      fun h => absurd h (by simp [hc])⟩
  · exact ⟨fun h => absurd h (by simp [hc]), fun _ => insertMap_mem_self ..,
      fun h => absurd h (by simp [hc])⟩
  · exact ⟨fun h => absurd h (by simp [hc]), fun h => absurd h (by simp [hc]),
      fun _ => List.mem_append_right _ (List.mem_singleton.mpr rfl)⟩

/-- `Task::update_vruntime` changes only the `vruntime` field. -/
theorem update_vruntime_frame (t : Task) (d : Nat) :
    (Task.update_vruntime t d).id = t.id ∧
    (Task.update_vruntime t d).sched_class = t.sched_class ∧
    (Task.update_vruntime t d).state = t.state := by
  unfold Task.update_vruntime
  split <;> exact ⟨rfl, rfl, rfl⟩

/-- When the outgoing task is `Blocked`, `scheduleTail` moves it (with its
vruntime possibly folded) into `BLOCKED_TASKS` under its id, installs the
picked task as the running `CURRENT_TASK`, and zeroes the accumulated
runtime; queues and `WAKEUP_PENDING` keep phase 1's values. -/
theorem scheduleTail_blocked (s1 : SchedState) (next old : Task)
    (hc : s1.current = some old) (hb : old.state = TaskState.Blocked) :
    ∃ old2 : Task, old2.id = old.id ∧ old2.sched_class = old.sched_class ∧
      old2.state = TaskState.Blocked ∧
      scheduleTail s1 next =
        ({ s1 with
            current := some { next with state := TaskState.Running },
            accumulated_runtime := 0,
            blocked := insertBlocked s1.blocked old.id old2 }, true) := by
  have hfr := update_vruntime_frame old
    (if 0 < s1.accumulated_runtime then s1.accumulated_runtime else 1)
  refine ⟨if old.sched_class = .Normal then
      Task.update_vruntime old
        (if 0 < s1.accumulated_runtime then s1.accumulated_runtime else 1)
    else old, ?_, ?_, ?_, ?_⟩
  · split
    · exact (hfr).1
    · rfl
  · split
    · exact (hfr).2.1
    · rfl
  · split
    · rw [(hfr).2.2, hb]
    · exact hb
  · unfold scheduleTail
    simp only [hc]
    set old1 := if old.sched_class = SchedulingClass.Normal then
        Task.update_vruntime old
          (if 0 < s1.accumulated_runtime then s1.accumulated_runtime else 1)
      else old with hold1
    have h1 : old1.state = TaskState.Blocked := by
      rw [hold1]
      split
      · rw [hfr.2.2, hb]
      · exact hb
    have h2 : old1.id = old.id := by
      rw [hold1]
      split
      · exact hfr.1
      · rfl
    rw [if_neg (by rw [h1]; simp)]
    simp only [h1, h2]

/-- Phase 1 succeeds whenever some run queue is nonempty. -/
theorem pickNext_some (s : SchedState)
    (h : s.rt ≠ [] ∨ s.cfs ≠ [] ∨ s.idle ≠ []) :
    ∃ t s1, pickNext s = some (t, s1) := by
  unfold pickNext
  cases hr : popFirst s.rt with
  | some p =>
    obtain ⟨e, rt'⟩ := p
    exact ⟨e.2, { s with rt := rt' }, rfl⟩
  | none =>
    cases hcq : popFirst s.cfs with
    | some p =>
      obtain ⟨e, cfs'⟩ := p
      exact ⟨e.2, { s with cfs := cfs' }, rfl⟩
    | none =>
      cases hi : s.idle with
      | cons t0 rest => exact ⟨t0, { s with idle := rest }, rfl⟩
      | nil =>
        exfalso
        rcases h with h | h | h
        · exact h ((popFirst_eq_none _).mp hr)
        · exact h ((popFirst_eq_none _).mp hcq)
        · exact h hi

/-- C2: the lost-wakeup guard closes the wait/signal race.
(a) `unblock_task(id)` on a task that is not in `BLOCKED_TASKS` records the
id in `WAKEUP_PENDING`.
(b) A `block_current_task()` that follows such an early wakeup consumes the
pending entry and returns without blocking: the state is exactly the
original one, the task still running.
(c) In the other order — `block_current_task()` first (with some other task
runnable, so the blocker is switched out), then `unblock_task(self)` from
that other task — the blocker ends up `Ready` in the run queue of its class,
out of `BLOCKED_TASKS`, with no stale `WAKEUP_PENDING` entry: the wake
signal is not lost in either interleaving. -/
theorem c2_lost_wakeup (s : SchedState) (A : Task)
    (hcur : s.current = some A)
    (hnp : A.id ∉ s.wakeup_pending)
    (hnb : ∀ t ∈ s.blocked, t.1 ≠ A.id)
    (hrun : s.rt ≠ [] ∨ s.cfs ≠ [] ∨ s.idle ≠ []) :
    (∀ id, (∀ t ∈ s.blocked, t.1 ≠ id) → id ∈ (unblock_task s id).wakeup_pending) ∧
    block_current_task (unblock_task s A.id) = s ∧
    (∃ A2 : Task, A2.id = A.id ∧ A2.sched_class = A.sched_class ∧
      A2.state = TaskState.Ready ∧
      (∀ t ∈ (unblock_task (block_current_task s) A.id).blocked, t.1 ≠ A.id) ∧
      A.id ∉ (unblock_task (block_current_task s) A.id).wakeup_pending ∧
      (match A.sched_class with
       | SchedulingClass.Realtime =>
         (rtKey A2, A2) ∈ (unblock_task (block_current_task s) A.id).rt
       | SchedulingClass.Normal =>
         (cfsKey A2, A2) ∈ (unblock_task (block_current_task s) A.id).cfs
       | SchedulingClass.Idle =>
         A2 ∈ (unblock_task (block_current_task s) A.id).idle)) := by
  refine ⟨?_, ?_, ?_⟩
  · -- (a): early wakeup is recorded
    intro id hid
    unfold unblock_task
    rw [lookupRemove_eq_none s.blocked id hid]
    exact insertSet_mem s.wakeup_pending id
  · -- (b): pending wakeup short-circuits the block
    have hu : unblock_task s A.id =
        { s with wakeup_pending := insertSet s.wakeup_pending A.id } := by
      unfold unblock_task
      rw [lookupRemove_eq_none s.blocked A.id hnb]
    rw [hu]
    unfold block_current_task
    dsimp only
    simp only [hcur]
    rw [if_pos (insertSet_mem s.wakeup_pending A.id)]
    rw [removeSet_insertSet s.wakeup_pending A.id hnp]
    rw [← hcur]
  · -- (c): block, switch, then wake from the other task
    have hblock : block_current_task s =
        (schedule { s with current := some { A with state := TaskState.Blocked } }).1 := by
      unfold block_current_task
      simp only [hcur]
      rw [if_neg hnp]
    obtain ⟨nt, s1, hpick⟩ :=
      pickNext_some { s with current := some { A with state := TaskState.Blocked } } hrun
    have hframe := pickNext_frame hpick
    have hbl : s1.blocked = s.blocked := hframe.2.1
    have hc1 : s1.current = some { A with state := TaskState.Blocked } := by
      rw [hframe.1]
    obtain ⟨old2, h2id, h2cls, h2st, htail⟩ :=
      scheduleTail_blocked s1 nt { A with state := TaskState.Blocked } hc1 rfl
    have hsched : (schedule { s with current := some { A with state := TaskState.Blocked } }).1 =
        { s1 with
            current := some { nt with state := TaskState.Running },
            accumulated_runtime := 0,
            blocked := insertBlocked s1.blocked A.id old2 } := by
      unfold schedule
      rw [hpick]
      show (scheduleTail s1 nt).1 = _
      rw [htail]
    have hu2 : unblock_task (block_current_task s) A.id =
        enqueue_task_single
          { s1 with
              current := some { nt with state := TaskState.Running },
              accumulated_runtime := 0 }
          { old2 with state := TaskState.Ready } := by
      rw [hblock, hsched]
      unfold unblock_task
      have hlook : lookupRemove (insertBlocked s1.blocked A.id old2) A.id =
          some (old2, s1.blocked) :=
        lookupRemove_insertBlocked s1.blocked A.id old2 (by rw [hbl]; exact hnb)
      dsimp only
      rw [hlook]
      rfl
    refine ⟨{ old2 with state := TaskState.Ready }, ?_, ?_, rfl, ?_, ?_, ?_⟩
    · show old2.id = A.id
      exact h2id
    · show old2.sched_class = A.sched_class
      exact h2cls
    · rw [hu2]
      intro t ht
      rw [(enqueue_task_single_frame _ _).2.1] at ht
      dsimp only at ht
      rw [hbl] at ht
      exact hnb t ht
    · rw [hu2, (enqueue_task_single_frame _ _).2.2.1]
      dsimp only
      rw [hframe.2.2.1]
      exact hnp
    · cases hcls : A.sched_class
      · rw [hu2]
        exact (enqueue_task_single_mem _ _).1 (h2cls.trans hcls)
      · rw [hu2]
        exact (enqueue_task_single_mem _ _).2.1 (h2cls.trans hcls)
      · rw [hu2]
        exact (enqueue_task_single_mem _ _).2.2 (h2cls.trans hcls)

/-- C2 witness: on a concrete state (running Normal task, one Idle task
queued), an early `unblock_task(self)` followed by `block_current_task()`
restores exactly the original state — the blocker never commits to
`Blocked`. -/
theorem c2_lost_wakeup_witness :
    block_current_task (unblock_task sampleSched3 sampleNormal.id) = sampleSched3 :=
  (c2_lost_wakeup sampleSched3 sampleNormal rfl (by decide) (by decide)
    (Or.inr (Or.inr (by decide)))).2.1

/-! ### Slab-allocator alignment lemmas -/

/-- The `align_down` bit mask `addr & !(align - 1)`, for a power-of-two
alignment and an in-range address, clears the low `k` bits:
`a & (2^64 - 2^k) = 2^k * (a / 2^k)`. -/
theorem land_two_pow_complement (a k : Nat) (ha : a < 2 ^ 64) (hk : k ≤ 64) :
    Nat.land a (2 ^ 64 - 2 ^ k) = 2 ^ k * (a / 2 ^ k) := by
  show a &&& (2 ^ 64 - 2 ^ k) = 2 ^ k * (a / 2 ^ k)
  apply Nat.eq_of_testBit_eq
  intro i
  rw [Nat.testBit_land]
  have hsplit : 2 ^ 64 - 2 ^ k = 2 ^ k * (2 ^ (64 - k) - 1) := by
    have hpow : 2 ^ k * 2 ^ (64 - k) = 2 ^ 64 := by
      rw [← pow_add]
      congr 1
      omega
    rw [Nat.mul_sub_one, hpow]
  rw [hsplit, Nat.testBit_mul_pow_two, Nat.testBit_two_pow_sub_one,
    Nat.testBit_mul_pow_two]
  by_cases hki : k ≤ i
  · simp only [hki, decide_eq_true_eq, Bool.true_and, if_true, decide_True]
    rw [show a / 2 ^ k = a >>> k from (Nat.shiftRight_eq_div_pow a k).symm,
      Nat.testBit_shiftRight, show k + (i - k) = i by omega]
    by_cases hi64 : i < 64
    · simp [show i - k < 64 - k by omega]
    · have hfalse : Nat.testBit a i = false :=
        Nat.testBit_lt_two_pow
          (lt_of_lt_of_le ha (Nat.pow_le_pow_right (by norm_num) (by omega)))
      simp [hfalse, show ¬ i - k < 64 - k by omega]
  · simp [hki]

/-- `align_down` with a power-of-two alignment is the floor to a multiple. -/
theorem align_down_pow (a k : Nat) (ha : a < U64LIM) (hk : k ≤ 64) :
    align_down a (2 ^ k) = 2 ^ k * (a / 2 ^ k) := by
  unfold align_down
  have h1 : (1 : Nat) ≤ 2 ^ k := Nat.one_le_two_pow
  have h2 : (2 : Nat) ^ k ≤ 2 ^ 64 := Nat.pow_le_pow_right (by norm_num) hk
  have hmask : U64LIM - 1 - (2 ^ k - 1) = 2 ^ 64 - 2 ^ k := by
    unfold U64LIM
    omega
  rw [hmask]
  exact land_two_pow_complement a k ha hk

/-- `align_down` fixes addresses that are already aligned. -/
theorem align_down_of_dvd_pow (a k : Nat) (ha : a < U64LIM) (hk : k ≤ 64)
    (hdvd : 2 ^ k ∣ a) : align_down a (2 ^ k) = a := by
  rw [align_down_pow a k ha hk, Nat.mul_div_cancel' hdvd]

/-- Members of a freelist built by pushing `f 0, …, f (n-1)` onto `init`. -/
theorem foldl_cons_range_mem (f : Nat → Nat) :
    ∀ (n : Nat) (init : List Nat) (x : Nat),
      x ∈ (List.range n).foldl (fun acc i => f i :: acc) init →
      x ∈ init ∨ ∃ i, i < n ∧ x = f i := by
  intro n
  induction n with
  | zero =>
    intro init x hx
    exact Or.inl (by simpa using hx)
  | succ n ih =>
    intro init x hx
    rw [List.range_succ, List.foldl_append] at hx
    simp only [List.foldl_cons, List.foldl_nil] at hx
    rcases List.mem_cons.mp hx with rfl | hx1
    · exact Or.inr ⟨n, Nat.lt_succ_self n, rfl⟩
    · rcases ih init x hx1 with h | ⟨i, hi, rfl⟩
      · exact Or.inl h
      · exact Or.inr ⟨i, Nat.lt_succ_of_lt hi, rfl⟩

/-- Every block carved by `add_slab` is `slab_start + i * block_size`. -/
theorem add_slab_mem (fl : List Nat) (block_size slab_start slab_size x : Nat)
    (hx : x ∈ add_slab fl block_size slab_start slab_size) :
    x ∈ fl ∨ ∃ i, i < slab_size / block_size ∧ x = slab_start + i * block_size := by
  unfold add_slab at hx
  exact foldl_cons_range_mem (fun i => slab_start + i * block_size) _ fl x hx

/-- When the carve is exact — `heap_start` and the per-class slab size
`heap_size/2/10` both multiples of 4096 — every address on the class-`i`
freelist after `init` is a multiple of `SIZE_CLASSES[i]`. -/
theorem slabInit_aligned (heap_start heap_size : Nat)
    (hhs : 4096 ∣ heap_start) (hslab : 4096 ∣ heap_size / 2 / 10)
    (hsl : heap_size < U64LIM) :
    ∀ i, i < 10 → ∀ p ∈ (slabInit heap_start heap_size).free_lists.getD i [],
      SIZE_CLASSES.getD i 0 ∣ p := by
  have hSlim : heap_size / 2 / 10 < U64LIM :=
    lt_of_le_of_lt (le_trans (Nat.div_le_self _ _) (Nat.div_le_self _ _)) hsl
  have e8 : align_down (heap_size / 2 / 10) 8 = heap_size / 2 / 10 := by
    rw [show (8 : Nat) = 2 ^ 3 by norm_num]
    exact align_down_of_dvd_pow _ 3 hSlim (by norm_num)
      (by rw [show (2 : Nat) ^ 3 = 8 by norm_num]
          exact dvd_trans (by norm_num) hslab)
  have e16 : align_down (heap_size / 2 / 10) 16 = heap_size / 2 / 10 := by
    rw [show (16 : Nat) = 2 ^ 4 by norm_num]
    exact align_down_of_dvd_pow _ 4 hSlim (by norm_num)
      (by rw [show (2 : Nat) ^ 4 = 16 by norm_num]
          exact dvd_trans (by norm_num) hslab)
  have e32 : align_down (heap_size / 2 / 10) 32 = heap_size / 2 / 10 := by
    rw [show (32 : Nat) = 2 ^ 5 by norm_num]
    exact align_down_of_dvd_pow _ 5 hSlim (by norm_num)
      (by rw [show (2 : Nat) ^ 5 = 32 by norm_num]
          exact dvd_trans (by norm_num) hslab)
  have e64 : align_down (heap_size / 2 / 10) 64 = heap_size / 2 / 10 := by
    rw [show (64 : Nat) = 2 ^ 6 by norm_num]
    exact align_down_of_dvd_pow _ 6 hSlim (by norm_num)
      (by rw [show (2 : Nat) ^ 6 = 64 by norm_num]
          exact dvd_trans (by norm_num) hslab)
  have e128 : align_down (heap_size / 2 / 10) 128 = heap_size / 2 / 10 := by
    rw [show (128 : Nat) = 2 ^ 7 by norm_num]
    exact align_down_of_dvd_pow _ 7 hSlim (by norm_num)
      (by rw [show (2 : Nat) ^ 7 = 128 by norm_num]
          exact dvd_trans (by norm_num) hslab)
  have e256 : align_down (heap_size / 2 / 10) 256 = heap_size / 2 / 10 := by
    rw [show (256 : Nat) = 2 ^ 8 by norm_num]
    exact align_down_of_dvd_pow _ 8 hSlim (by norm_num)
      (by rw [show (2 : Nat) ^ 8 = 256 by norm_num]
          exact dvd_trans (by norm_num) hslab)
  have e512 : align_down (heap_size / 2 / 10) 512 = heap_size / 2 / 10 := by
    rw [show (512 : Nat) = 2 ^ 9 by norm_num]
    exact align_down_of_dvd_pow _ 9 hSlim (by norm_num)
      (by rw [show (2 : Nat) ^ 9 = 512 by norm_num]
          exact dvd_trans (by norm_num) hslab)
  have e1024 : align_down (heap_size / 2 / 10) 1024 = heap_size / 2 / 10 := by
    rw [show (1024 : Nat) = 2 ^ 10 by norm_num]
    exact align_down_of_dvd_pow _ 10 hSlim (by norm_num)
      (by rw [show (2 : Nat) ^ 10 = 1024 by norm_num]
          exact dvd_trans (by norm_num) hslab)
  have e2048 : align_down (heap_size / 2 / 10) 2048 = heap_size / 2 / 10 := by
    rw [show (2048 : Nat) = 2 ^ 11 by norm_num]
    exact align_down_of_dvd_pow _ 11 hSlim (by norm_num)
      (by rw [show (2 : Nat) ^ 11 = 2048 by norm_num]
          exact dvd_trans (by norm_num) hslab)
  have e4096 : align_down (heap_size / 2 / 10) 4096 = heap_size / 2 / 10 := by
    rw [show (4096 : Nat) = 2 ^ 12 by norm_num]
    exact align_down_of_dvd_pow _ 12 hSlim (by norm_num)
      (by rw [show (2 : Nat) ^ 12 = 4096 by norm_num]
          exact dvd_trans (by norm_num) hslab)
  have hfl : (slabInit heap_start heap_size).free_lists =
      [add_slab [] 8 (heap_start) (heap_size / 2 / 10),
       add_slab [] 16 (heap_start + heap_size / 2 / 10) (heap_size / 2 / 10),
       add_slab [] 32 (heap_start + heap_size / 2 / 10 + heap_size / 2 / 10) (heap_size / 2 / 10),
       add_slab [] 64 (heap_start + heap_size / 2 / 10 + heap_size / 2 / 10 + heap_size / 2 / 10) (heap_size / 2 / 10),
       add_slab [] 128 (heap_start + heap_size / 2 / 10 + heap_size / 2 / 10 + heap_size / 2 / 10 + heap_size / 2 / 10) (heap_size / 2 / 10),
       add_slab [] 256 (heap_start + heap_size / 2 / 10 + heap_size / 2 / 10 + heap_size / 2 / 10 + heap_size / 2 / 10 + heap_size / 2 / 10) (heap_size / 2 / 10),
       add_slab [] 512 (heap_start + heap_size / 2 / 10 + heap_size / 2 / 10 + heap_size / 2 / 10 + heap_size / 2 / 10 + heap_size / 2 / 10 + heap_size / 2 / 10) (heap_size / 2 / 10),
       add_slab [] 1024 (heap_start + heap_size / 2 / 10 + heap_size / 2 / 10 + heap_size / 2 / 10 + heap_size / 2 / 10 + heap_size / 2 / 10 + heap_size / 2 / 10 + heap_size / 2 / 10) (heap_size / 2 / 10),
       add_slab [] 2048 (heap_start + heap_size / 2 / 10 + heap_size / 2 / 10 + heap_size / 2 / 10 + heap_size / 2 / 10 + heap_size / 2 / 10 + heap_size / 2 / 10 + heap_size / 2 / 10 + heap_size / 2 / 10) (heap_size / 2 / 10),
       add_slab [] 4096 (heap_start + heap_size / 2 / 10 + heap_size / 2 / 10 + heap_size / 2 / 10 + heap_size / 2 / 10 + heap_size / 2 / 10 + heap_size / 2 / 10 + heap_size / 2 / 10 + heap_size / 2 / 10 + heap_size / 2 / 10) (heap_size / 2 / 10)] := by
    unfold slabInit SIZE_CLASSES NUM_SIZE_CLASSES
    simp only [List.foldl_cons, List.foldl_nil]
    rw [e8, e16, e32, e64, e128, e256, e512, e1024, e2048, e4096]
    simp
  intro i hi p hp
  rw [hfl] at hp
  interval_cases i <;>
    simp only [List.getD_cons_zero, List.getD_cons_succ, SIZE_CLASSES] at hp ⊢ <;>
    (rcases add_slab_mem _ _ _ _ _ hp with habs | ⟨j, hj, rfl⟩
     · exact absurd habs (List.not_mem_nil p)
     · refine Nat.dvd_add ?_ (dvd_mul_left _ _)
       repeat' apply Nat.dvd_add
       all_goals first
         | exact dvd_trans (by norm_num) hhs
         | exact dvd_trans (by norm_num) hslab)

/-- `size_to_class` returns an in-range index whose class is a power of two
at least the requested size. -/
theorem size_to_class_spec (sz idx : Nat) (h : size_to_class sz = some idx) :
    idx < 10 ∧ sz ≤ SIZE_CLASSES.getD idx 0 ∧
      ∃ m, m ≤ 64 ∧ SIZE_CLASSES.getD idx 0 = 2 ^ m := by
  unfold size_to_class SIZE_CLASSES at h
  by_cases h8 : sz ≤ 8
  · simp [List.findIdx?_cons, h8] at h
    subst h
    exact ⟨by norm_num, h8, 3, by norm_num, by decide⟩
  · 
    by_cases h16 : sz ≤ 16
    · simp [List.findIdx?_cons, h8, h16] at h
      subst h
      exact ⟨by norm_num, h16, 4, by norm_num, by decide⟩
    · 
      by_cases h32 : sz ≤ 32
      · simp [List.findIdx?_cons, h8, h16, h32] at h
        subst h
        exact ⟨by norm_num, h32, 5, by norm_num, by decide⟩
      · 
        by_cases h64 : sz ≤ 64
        · simp [List.findIdx?_cons, h8, h16, h32, h64] at h
          subst h
          exact ⟨by norm_num, h64, 6, by norm_num, by decide⟩
        · 
          by_cases h128 : sz ≤ 128
          · simp [List.findIdx?_cons, h8, h16, h32, h64, h128] at h
            subst h
            exact ⟨by norm_num, h128, 7, by norm_num, by decide⟩
          · 
            by_cases h256 : sz ≤ 256
            · simp [List.findIdx?_cons, h8, h16, h32, h64, h128, h256] at h
              subst h
              exact ⟨by norm_num, h256, 8, by norm_num, by decide⟩
            · 
              by_cases h512 : sz ≤ 512
              · simp [List.findIdx?_cons, h8, h16, h32, h64, h128, h256, h512] at h
                subst h
                exact ⟨by norm_num, h512, 9, by norm_num, by decide⟩
              · 
                by_cases h1024 : sz ≤ 1024
                · simp [List.findIdx?_cons, h8, h16, h32, h64, h128, h256, h512, h1024] at h
                  subst h
                  exact ⟨by norm_num, h1024, 10, by norm_num, by decide⟩
                · 
                  by_cases h2048 : sz ≤ 2048
                  · simp [List.findIdx?_cons, h8, h16, h32, h64, h128, h256, h512, h1024, h2048] at h
                    subst h
                    exact ⟨by norm_num, h2048, 11, by norm_num, by decide⟩
                  · 
                    by_cases h4096 : sz ≤ 4096
                    · simp [List.findIdx?_cons, h8, h16, h32, h64, h128, h256, h512, h1024, h2048, h4096] at h
                      subst h
                      exact ⟨by norm_num, h4096, 12, by norm_num, by decide⟩
                    simp [List.findIdx?_cons, h8, h16, h32, h64, h128, h256, h512, h1024, h2048, h4096] at h

/-- C8 (counterexample): after `init(heap_start = 4096, heap_size = 2080)`
the per-class slab size is `2080/2/10 = 104`; the class-8 slab consumes 104
bytes, so the class-16 slab starts at `4200` and its blocks are ≡ 8 mod 16.
`alloc(size 16, align 16)` — class_size 16 — returns `4280`, which is not
16-byte aligned, refuting the claim. -/
theorem c8_counterexample :
    (alloc (slabInit 4096 2080) 16 16).1 = some 4280 ∧
    size_to_class (max 16 16) = some 1 ∧
    SIZE_CLASSES.getD 1 0 = 16 ∧
    4280 % max 16 (16 : Nat) ≠ 0 := by
  refine ⟨by decide, by decide, by decide, by decide⟩

/-- C8 (amended): when the carve is exact — `heap_start` and the per-class
slab size `heap_size/2/10` multiples of 4096 — an `alloc(layout)` served
from a nonempty class freelist straight after `init` returns the freelist
head, and that pointer is aligned to `max(layout.align, class_size)`, the
class being the smallest `≥ max(layout.size, layout.align)`. -/
theorem c8_alloc_aligned (heap_start heap_size size align idx k p : Nat)
    (rest : List Nat)
    (hhs : 4096 ∣ heap_start) (hslab : 4096 ∣ heap_size / 2 / 10)
    (hsl : heap_size < U64LIM)
    (halign : align = 2 ^ k)
    (hidx : size_to_class (max size align) = some idx)
    (hfl : (slabInit heap_start heap_size).free_lists.getD idx [] = p :: rest) :
    (alloc (slabInit heap_start heap_size) size align).1 = some p ∧
    p % max align (SIZE_CLASSES.getD idx 0) = 0 := by
  obtain ⟨hidx10, hle, m, hm64, hcm⟩ := size_to_class_spec _ _ hidx
  have hdvd : SIZE_CLASSES.getD idx 0 ∣ p := by
    apply slabInit_aligned heap_start heap_size hhs hslab hsl idx hidx10
    rw [hfl]
    exact List.mem_cons_self _ _
  have halc : align ≤ SIZE_CLASSES.getD idx 0 :=
    le_trans (le_max_right size align) hle
  have hmax : max align (SIZE_CLASSES.getD idx 0) = SIZE_CLASSES.getD idx 0 :=
    max_eq_right halc
  constructor
  · unfold alloc
    simp only [hidx, hfl]
  · rw [hmax]
    exact Nat.dvd_iff_mod_eq_zero.mp hdvd

set_option maxRecDepth 100000 in
/-- C8 witness: `init(4096, 81920)` gives exact 4096-byte class slabs; the
class-16 freelist head `12272` is returned for a `(16, 16)` layout and is
16-byte aligned. -/
theorem c8_alloc_aligned_witness :
    (alloc (slabInit 4096 81920) 16 16).1 = some 12272 ∧
    12272 % max 16 (SIZE_CLASSES.getD 1 0) = 0 :=
  c8_alloc_aligned 4096 81920 16 16 1 4 12272
    ((slabInit 4096 81920).free_lists.getD 1 []).tail
    (by norm_num) (by decide) (by decide) (by norm_num)
    (by decide) (by decide)

end Je4OS
